import Mathlib

/-!
Shallow embedding of the core logic of `schedule.py` (asakura42/scheduler,
"Weekly Schedule Generator"): the weekday enumeration with its locale
aliases, the `Event` record and its (static) validators, the line-oriented
schedule-file parser `parse_txt`, the grid renderer `plot_events`, and the
form-side helpers `insert_sorted`, `convert_time_input` and `is_valid_time`.

Python exceptions are modelled with `Except` / `Option`; `datetime.time`
values are modelled as (hour, minute) pairs of naturals; matplotlib axis
state is modelled as an explicit `Fig` record recording the calls made on it.
-/

/-- ASCII whitespace, as stripped by Python `str.strip()`. -/
def isPySpace (c : Char) : Bool :=
  c = ' ' || c = '\t' || c = '\n' || c = '\r' || c = '\x0b' || c = '\x0c'

/-- Python `str.strip()`: drop leading and trailing whitespace. -/
def pyStrip (s : String) : String :=
  String.mk (((s.data.dropWhile isPySpace).reverse.dropWhile isPySpace).reverse)

/-- Lowercasing of one character (Python `str.lower`), for ASCII letters and the Cyrillic letters
used by the weekday aliases (the only code points this program lowercases). -/
def pyLowerChar (c : Char) : Char :=
  if 'A' ≤ c ∧ c ≤ 'Z' then Char.ofNat (c.toNat + 32)
  else if 0x410 ≤ c.toNat ∧ c.toNat ≤ 0x42F then Char.ofNat (c.toNat + 32)
  else if c.toNat = 0x401 then Char.ofNat 0x451
  else c

/-- Python `str.lower`. -/
def pyLower (s : String) : String := String.mk (s.data.map pyLowerChar)

def pyUpperChar (c : Char) : Char :=
  if 'a' ≤ c ∧ c ≤ 'z' then Char.ofNat (c.toNat - 32) else c

/-- Python `str.title` for the single-word weekday names used here. -/
def pyTitle (s : String) : String :=
  match s.data with
  | [] => ""
  | c :: cs => String.mk (pyUpperChar c :: cs.map pyLowerChar)

/-- Python `str.split(", ")`: left-to-right scan splitting at each non-overlapping
occurrence of the two-character separator. -/
def splitCommaSpaceAux : List Char → List Char → List (List Char)
  | [], acc => [acc.reverse]
  | ',' :: ' ' :: rest, acc => acc.reverse :: splitCommaSpaceAux rest []
  | c :: rest, acc => splitCommaSpaceAux rest (c :: acc)

def splitCommaSpace (s : String) : List String :=
  (splitCommaSpaceAux s.data []).map String.mk

/-- Python `str.split(" - ")`. -/
def splitDashAux : List Char → List Char → List (List Char)
  | [], acc => [acc.reverse]
  | ' ' :: '-' :: ' ' :: rest, acc => acc.reverse :: splitDashAux rest []
  | c :: rest, acc => splitDashAux rest (c :: acc)

def splitDash (s : String) : List String :=
  (splitDashAux s.data []).map String.mk

/-- Python `str.split(":")`. -/
def splitColonAux : List Char → List Char → List (List Char)
  | [], acc => [acc.reverse]
  | ':' :: rest, acc => acc.reverse :: splitColonAux rest []
  | c :: rest, acc => splitColonAux rest (c :: acc)

def splitColon (s : String) : List String :=
  (splitColonAux s.data []).map String.mk

/-- Value of a string of decimal digits. -/
def digitsVal (cs : List Char) : Nat :=
  cs.foldl (fun n c => n * 10 + (c.toNat - 48)) 0

/-- Model of `datetime.time`: wall-clock hour and minute. -/
structure Dtime where
  hour : Nat
  minute : Nat
deriving DecidableEq, Repr

/-- Python `datetime.datetime.strptime(s, "%H:%M")` (keeping only the time part).
Python's strptime matches `%H` against 1-2 digits with value 0-23, the
literal `:`, then `%M` against 1-2 digits with value 0-59, and fails if any
input remains unconsumed.  Equivalently: the string is `H ++ ":" ++ M` with
`H`, `M` runs of 1-2 digits whose values are in range. -/
def strptimeHM (s : String) : Option Dtime :=
  match splitColon s with
  | [hs, ms] =>
    if hs.data.all Char.isDigit = true ∧ 1 ≤ hs.length ∧ hs.length ≤ 2 ∧
       digitsVal hs.data ≤ 23 ∧
       ms.data.all Char.isDigit = true ∧ 1 ≤ ms.length ∧ ms.length ≤ 2 ∧
       digitsVal ms.data ≤ 59 then
      some ⟨digitsVal hs.data, digitsVal ms.data⟩
    else none
  | _ => none

/-- Comparison `a <= b` on `datetime.time` values (field-lexicographic). -/
def dtime_le (a b : Dtime) : Bool :=
  decide (a.hour < b.hour ∨ (a.hour = b.hour ∧ a.minute ≤ b.minute))

/-- Comparison `a < b` on `datetime.time` values (field-lexicographic). -/
def dtime_lt (a b : Dtime) : Bool :=
  decide (a.hour < b.hour ∨ (a.hour = b.hour ∧ a.minute < b.minute))

/-- A member of `WeekdayEnum`: its (canonical) name and ordinal value. -/
structure Weekday where
  name : String
  value : Nat
deriving DecidableEq, Repr

/-- The table `WeekdayEnum.__members__`: every accepted name (canonical members and
aliases) with its ordinal value, in definition order. -/
def WeekdayEnum_members : List (String × Nat) :=
  [("mon", 0), ("tue", 1), ("wed", 2), ("thu", 3), ("fri", 4), ("sat", 5), ("sun", 6),
   ("пн", 0), ("вт", 1), ("ср", 2), ("чт", 3), ("пт", 4), ("сб", 5), ("вс", 6),
   ("monday", 0), ("tuesday", 1), ("wednesday", 2), ("thursday", 3),
   ("friday", 4), ("saturday", 5), ("sunday", 6)]

/-- The canonical (non-alias) members, in the order Python iterates
`WeekdayEnum`; an alias lookup resolves to the canonical member of its value. -/
def WeekdayEnum_canonical : List Weekday :=
  [⟨"mon", 0⟩, ⟨"tue", 1⟩, ⟨"wed", 2⟩, ⟨"thu", 3⟩, ⟨"fri", 4⟩, ⟨"sat", 5⟩, ⟨"sun", 6⟩]

/-- Lookup `WeekdayEnum[name]`: look the name up among all members; the returned
member is the canonical one for the matched ordinal (Python enum alias
resolution).  `none` models the `KeyError`. -/
def WeekdayEnum_getitem (s : String) : Option Weekday :=
  match WeekdayEnum_members.find? (fun p => p.1 == s) with
  | some p => WeekdayEnum_canonical.get? p.2
  | none => none

/-- The `Event` record: `Event.__init__` stores the five fields as given,
performing no validation. -/
structure Event where
  title : String
  day : Weekday
  start : Dtime
  end_ : Dtime
  color : String
deriving DecidableEq, Repr

/-- Model of `Event.get_enum_from_str` on a string argument: strip, lowercase, look up
in `WeekdayEnum.__members__`; raises `ValueError` (modelled as `Except.error`
with the message) when no member matches. -/
def get_enum_from_str (v : String) : Except String Weekday :=
  match WeekdayEnum_getitem (pyLower (pyStrip v)) with
  | some d => Except.ok d
  | none => Except.error "Day must be one of: Mon, Tue, Wed, Thu, Fri, Sat, Sun"

/-- Validator `Event.ends_after_start` (defined but never invoked): given the already-validated `start` value (if
present in `values`), raises when `values["start"] >= v`. -/
def ends_after_start (v : Dtime) (start? : Option Dtime) : Except String Dtime :=
  match start? with
  | some s => if dtime_le v s then Except.error "Event must end after it starts"
              else Except.ok v
  | none => Except.ok v

def isHexDigit (c : Char) : Bool :=
  c.isDigit || decide (('a' ≤ c ∧ c ≤ 'f') ∨ ('A' ≤ c ∧ c ≤ 'F'))

/-- Modelled from the spec: the named-color table of the external matplotlib
collaborator (`mcolors.to_rgba`), restricted to the CSS names exercised here;
the spec's `normalizeColor` accepts "any named CSS-style color". -/
def namedColors : List (String × String) :=
  [("red", "#ff0000"), ("green", "#008000"), ("blue", "#0000ff"),
   ("black", "#000000"), ("white", "#ffffff"), ("yellow", "#ffff00")]

/-- Modelled from the spec: matplotlib's `to_hex(to_rgba(v))` (external
library code, the spec's `normalizeColor`): accepts a named color or a hex
string `#rgb` / `#rrggbb` / `#rrggbbaa` and yields canonical lowercase
`#rrggbb` (`to_hex` drops the alpha channel by default). -/
def mcolors_to_hex (v : String) : Option String :=
  match namedColors.find? (fun p => p.1 == v) with
  | some p => some p.2
  | none =>
    match v.data with
    | '#' :: cs =>
      if cs.all isHexDigit then
        match cs.map pyLowerChar with
        | [r, g, b] => some (String.mk ['#', r, r, g, g, b, b])
        | [r1, r2, g1, g2, b1, b2] => some (String.mk ['#', r1, r2, g1, g2, b1, b2])
        | [r1, r2, g1, g2, b1, b2, _, _] => some (String.mk ['#', r1, r2, g1, g2, b1, b2])
        | _ => none
      else none
    | _ => none

/-- Validator `Event.validate_color` (defined but never invoked): normalize via matplotlib, or raise `ValueError`. -/
def validate_color (v : String) : Except String String :=
  match mcolors_to_hex v with
  | some hex => Except.ok hex
  | none => Except.error "Invalid color format. Please provide a valid hex or CSS color name."

/-- The Python exception kinds relevant to `parse_txt`'s `try`/`except`. -/
inductive PyErr where
  | valueError
  | keyError
  | indexError
deriving DecidableEq, Repr

/-- Indexing `parts[i]`: raises `IndexError` when out of range. -/
def getIdx (parts : List String) (i : Nat) : Except PyErr String :=
  match parts.get? i with
  | some v => Except.ok v
  | none => Except.error PyErr.indexError

/-- Tuple unpacking `a, b = xs`: raises `ValueError` unless `xs` has exactly
two elements. -/
def unpack2 : List String → Except PyErr (String × String)
  | [a, b] => Except.ok (a, b)
  | _ => Except.error PyErr.valueError

def optToExcept (e : PyErr) : Option α → Except PyErr α
  | some a => Except.ok a
  | none => Except.error e

/-- The body of `parse_txt`'s per-line `try` block, in source statement
order: split the stripped line on `", "`, read `parts[0]`, look
`parts[1].lower()` up in `WeekdayEnum` (`KeyError` on failure), unpack
`parts[2].split(" - ")` into start/end (`ValueError` on failure), read
`parts[3]`, then `strptime` both time strings (`ValueError` on failure) and
build the `Event`. -/
def parse_line (line : String) : Except PyErr Event := do
  let parts := splitCommaSpace (pyStrip line)
  let title ← getIdx parts 0
  let dayStr ← getIdx parts 1
  let day ← optToExcept PyErr.keyError (WeekdayEnum_getitem (pyLower dayStr))
  let timeRange ← getIdx parts 2
  let se ← unpack2 (splitDash timeRange)
  let color ← getIdx parts 3
  let start ← optToExcept PyErr.valueError (strptimeHM se.1)
  let end_ ← optToExcept PyErr.valueError (strptimeHM se.2)
  Except.ok { title := title, day := day, start := start, end_ := end_, color := color }

/-- The loop of `parse_txt`: `except (ValueError, KeyError): continue` drops
the line; any other exception (notably `IndexError`) propagates. -/
def parse_txt_aux : List String → List Event → Except PyErr (List Event)
  | [], events => Except.ok events
  | line :: rest, events =>
    match parse_line line with
    | Except.ok e => parse_txt_aux rest (events ++ [e])
    | Except.error PyErr.valueError => parse_txt_aux rest events
    | Except.error PyErr.keyError => parse_txt_aux rest events
    | Except.error PyErr.indexError => Except.error PyErr.indexError

/-- Model of `parse_txt`, taking the file's lines (the file read itself is I/O). -/
def parse_txt (lines : List String) : Except PyErr (List Event) :=
  parse_txt_aux lines []

/-- Model of `time_to_hours`: a wall-clock time as fractional hours (`hour + minute/60`).
The Python code computes this in floating point; for the value range involved
(hours 0-23, minutes 0-59) the float result rounds to the same `ceil`, so the
exact rational is a faithful model. -/
def time_to_hours (t : Dtime) : ℚ := t.hour + t.minute / 60

/-- Python `time.strftime("%H:%M")`: zero-padded rendering. -/
def zfill2 (n : Nat) : String := if n < 10 then "0" ++ toString n else toString n

def strftimeHM (t : Dtime) : String := zfill2 t.hour ++ ":" ++ zfill2 t.minute

/-- A `plt.fill_between([min_x, max_x], ..., color=...)` call: a filled
rectangular band. -/
structure Band where
  min_x : ℚ
  max_x : ℚ
  min_y : ℚ
  max_y : ℚ
  color : String
deriving Repr

/-- A `plt.text(x, y, s, ...)` call. -/
structure TextElem where
  x : ℚ
  y : ℚ
  txt : String
deriving Repr

/-- The matplotlib figure/axes state, recording the effect of each drawing
and axis-configuration call made by `plot_events`.  `ylim` stores the
`set_ylim(bottom, top)` pair as passed. -/
structure Fig where
  bands : List Band := []
  texts : List TextElem := []
  title : Option String := none
  xlim : Option (ℚ × ℚ) := none
  xticks : List Nat := []
  xticklabels : List String := []
  ylim : Option (ℤ × ℤ) := none
  yticks : List ℤ := []
  yticklabels : List String := []
  grid_y : Bool := false
  saved_to : Option String := none
  shown : Bool := false
deriving Repr

/-- The two rendering errors `plot_events` can raise (both `ValueError` in
Python; the spec names them `NoOutputTargetError` and `EmptyScheduleError`). -/
inductive PlotErr where
  | noOutputTarget
  | emptySchedule
deriving DecidableEq, Repr

/-- One iteration of the `for event in events` loop: a filled band across the
event's day column and time extent, plus the time-range text and the centered
title text. -/
def plot_loop_body (fig : Fig) (event : Event) : Fig :=
  let min_x : ℚ := event.day.value + 1/2
  let max_x : ℚ := min_x + 96/100
  let min_y : ℚ := time_to_hours event.start
  let max_y : ℚ := time_to_hours event.end_
  { fig with
    bands := fig.bands ++ [⟨min_x, max_x, min_y, max_y, event.color⟩],
    texts := fig.texts ++
      [⟨min_x + 2/100, min_y + 2/100,
        strftimeHM event.start ++ " - " ++ strftimeHM event.end_⟩,
       ⟨(min_x + max_x) / 2, (min_y + max_y) / 2, event.title⟩] }

/-- The days list `[day.name.title() for day in WeekdayEnum if with_weekends or day.value < 5]`. -/
def plot_days (with_weekends : Bool) : List String :=
  (WeekdayEnum_canonical.filter (fun d => with_weekends || decide (d.value < 5))).map
    (fun d => pyTitle d.name)

/-- The figure state after the event loop, the title, and the x-axis setup
(`set_xlim(0.5, len(days) + 0.5)`, `set_xticks(range(1, len(days)+1))`,
`set_xticklabels(days)`). -/
def plot_fig_base (events : List Event) (with_weekends : Bool) : Fig :=
  let fig := events.foldl plot_loop_body {}
  let fig := { fig with title := some "Weekly Schedule" }
  let days := plot_days with_weekends
  { fig with xlim := some (1/2, (days.length : ℚ) + 1/2),
             xticks := (List.range days.length).map (fun i => i + 1),
             xticklabels := days }

/-- Python `range(a, b)` over integers. -/
def pyRangeZ (a b : ℤ) : List ℤ :=
  (List.range (b - a).toNat).map (fun (i : ℕ) => a + (i : ℤ))

/-- Axis calls `set_ylim(latest, earliest)`, `set_yticks(range(earliest, latest))`,
`set_yticklabels([f"{h}:00" ...])`, `grid(axis="y", ...)`. -/
def plot_set_y (fig : Fig) (earliest latest : ℤ) : Fig :=
  { fig with ylim := some (latest, earliest),
             yticks := pyRangeZ earliest latest,
             yticklabels := (pyRangeZ earliest latest).map (fun h => toString h ++ ":00"),
             grid_y := true }

/-- The trailing `if save_img: plt.savefig(out_path, ...)` and
`if show: plt.show()`. -/
def plot_finish (fig : Fig) (save_img show_img : Bool) (out_path : Option String) : Fig :=
  let fig := if save_img then { fig with saved_to := out_path } else fig
  if show_img then { fig with shown := true } else fig

/-- Model of `plot_events(events, show, with_weekends, save_img, out_path)`.

The first component of the result is the `events` list as the function
leaves it (the source contains no statement assigning to the list or to any
event attribute, which this statement-by-statement translation mirrors); the
second is the figure produced, or the error raised.

Error order follows the source: the `save_img and out_path is None` guard
raises first; otherwise `min(...)` over an empty `events` raises (the
drawing/axis work done before that point is discarded by the exception, so
the empty case returns only the error). -/
def plot_events (events : List Event) (show_img with_weekends save_img : Bool)
    (out_path : Option String) : List Event × Except PlotErr Fig :=
  if save_img && out_path.isNone then
    (events, Except.error PlotErr.noOutputTarget)
  else
    match events with
    | [] => (events, Except.error PlotErr.emptySchedule)
    | e :: es =>
      let fig := plot_fig_base (e :: es) with_weekends
      let earliest : ℤ := ⌈(es.map (fun ev => time_to_hours ev.start)).foldl min (time_to_hours e.start)⌉
      let latest : ℤ := ⌈(es.map (fun ev => time_to_hours ev.end_)).foldl max (time_to_hours e.end_)⌉
      let fig := plot_set_y fig earliest latest
      (events, Except.ok (plot_finish fig save_img show_img out_path))

/-- The module-level `weekdays` list (full English day names). -/
def weekdays : List String :=
  ["Monday", "Tuesday", "Wednesday", "Thursday", "Friday", "Saturday", "Sunday"]

/-- Model of `WeeklyScheduleGenerator.convert_time_input`: strip non-digit characters,
return `""` when nothing is left, left-pad with zeros to four characters
(`zfill(4)`), then take the first two characters as hours and everything
after them as minutes. -/
def convert_time_input (time_input : String) : String :=
  let digits := time_input.data.filter Char.isDigit
  if digits.isEmpty then ""
  else
    let padded := if digits.length < 4 then
      List.replicate (4 - digits.length) '0' ++ digits else digits
    String.mk (padded.take 2) ++ ":" ++ String.mk (padded.drop 2)

/-- Model of `WeeklyScheduleGenerator.is_valid_time`:
`re.match(r"\d{2}:\d{2}", time) is not None`.  `re.match` anchors only at
the start of the string, so any string beginning with digit-digit-colon-
digit-digit matches, with no range check and no constraint on what follows. -/
def is_valid_time (t : String) : Bool :=
  match t.data with
  | a :: b :: c :: d :: e :: _ =>
    a.isDigit && b.isDigit && decide (c = ':') && d.isDigit && e.isDigit
  | _ => false

/-- The (day-index, start-time) sort key `insert_sorted` extracts from a task
item's text: split on `", "`, take field 1 as the day and the part of field 2
before `" - "` as the start time; `weekdays.index` and `strptime` failures
(and missing fields) are modelled by `none`.  Comparing the parsed
`datetime.datetime` objects (equal default dates) is comparing (hour, minute)
lexicographically. -/
def taskKey (s : String) : Option (Nat × Dtime) := do
  let info := splitCommaSpace s
  let day ← info.get? 1
  let timeField ← info.get? 2
  let dayIdx ← weekdays.findIdx? (fun w => w == day)
  let startStr ← (splitDash timeField).get? 0
  let t ← strptimeHM startStr
  some (dayIdx, t)

/-- The comparison in `insert_sorted`'s loop:
`task_day_index < current_day_index or (task_day_index == current_day_index
and task_start_datetime < current_start_datetime)`. -/
def keyLt (a b : Nat × Dtime) : Bool :=
  decide (a.1 < b.1) || (decide (a.1 = b.1) && dtime_lt a.2 b.2)

/-- The loop of `insert_sorted`: walk the existing items; insert before the
first item whose key is strictly greater than the new item's key, else append
at the end.  Examining an unparsable existing item fails (`none`). -/
def insert_sorted_aux (k : Nat × Dtime) (item : String) :
    List String → Option (List String)
  | [] => some [item]
  | cur :: rest => do
    let ck ← taskKey cur
    if keyLt k ck then
      some (item :: cur :: rest)
    else
      let r ← insert_sorted_aux k item rest
      some (cur :: r)

/-- Model of `WeeklyScheduleGenerator.insert_sorted`: extract the new item's key, then
run the insertion loop over the current task list (the `QListWidget` is
modelled as the list of its items' texts; the in-place insertion as returning
the new list). -/
def insert_sorted (item : String) (tasks : List String) : Option (List String) := do
  let k ← taskKey item
  insert_sorted_aux k item tasks

/-- Non-strict key order on (possibly unparsed) items, used to state
sortedness: both parse and the second's key is not below the first's. -/
def itemLe (x y : String) : Bool :=
  match taskKey x, taskKey y with
  | some a, some b => !(keyLt b a)
  | _, _ => true

/-- C1: the claim says every construction of an Event with `end <= start`
fails with `InvalidRangeError`.  In the code, `Event.__init__` performs no
validation and `parse_txt` never invokes the (dead) validator
`Event.ends_after_start`: the line `"X, Monday, 09:00 - 09:00, red"` parses
to an Event whose end equals its start.  The event's `end <= start`
(`dtime_le`), and the code's own validator would have rejected exactly this
value — the validator is simply never called. -/
theorem c1_parse_constructs_end_le_start_event :
    parse_txt ["X, Monday, 09:00 - 09:00, red"] =
      Except.ok [{ title := "X", day := ⟨"mon", 0⟩, start := ⟨9, 0⟩,
                   end_ := ⟨9, 0⟩, color := "red" }] ∧
    dtime_le (⟨9, 0⟩ : Dtime) ⟨9, 0⟩ = true ∧
    ends_after_start ⟨9, 0⟩ (some ⟨9, 0⟩) =
      Except.error "Event must end after it starts" :=
  ⟨rfl, by decide, rfl⟩

/-- C2: the claim says every line with fewer than 4 fields is dropped and no
exception reaches the caller.  In the code the `except` clause catches only
`ValueError` and `KeyError`; a 3-field line whose first three fields parse
reaches `parts[3]` and raises an uncaught `IndexError` — and that error also
discards the events of every other (valid) line.  A 3-field line whose
time-range sub-parse fails first is indeed skipped. -/
theorem c2_three_field_line_raises :
    parse_txt ["X, Monday, 09:00 - 10:00"] = Except.error PyErr.indexError ∧
    parse_txt ["A, Monday, 09:00 - 10:00, red", "X, Tuesday, 10:00 - 11:00"] =
      Except.error PyErr.indexError ∧
    parse_txt ["X, Monday, 09:00"] = Except.ok [] :=
  ⟨rfl, rfl, rfl⟩

/-- C3: the claim says the color of every parsed Event is normalized to
canonical hex, e.g. `"red"` to `"#ff0000"`.  In the code `parse_txt` stores
`parts[3]` verbatim and never calls the (dead) validator
`Event.validate_color`, which would have produced `"#ff0000"`. -/
theorem c3_parsed_color_not_normalized :
    parse_txt ["X, Monday, 09:00 - 10:00, red"] =
      Except.ok [{ title := "X", day := ⟨"mon", 0⟩, start := ⟨9, 0⟩,
                   end_ := ⟨10, 0⟩, color := "red" }] ∧
    validate_color "red" = Except.ok "#ff0000" ∧
    ("red" : String) ≠ "#ff0000" :=
  ⟨rfl, rfl, by decide⟩

/-- C7: `get_enum_from_str` is case-insensitive and trims whitespace —
`"MON"`, `"Monday"` and `" mon "` all map to the member of ordinal 0 — and
any text whose stripped lowercase form matches no member name raises the
`ValueError`. -/
theorem c7_get_enum_from_str_spec :
    get_enum_from_str "MON" = Except.ok ⟨"mon", 0⟩ ∧
    get_enum_from_str "Monday" = Except.ok ⟨"mon", 0⟩ ∧
    get_enum_from_str " mon " = Except.ok ⟨"mon", 0⟩ ∧
    ∀ s : String, (∀ p ∈ WeekdayEnum_members, pyLower (pyStrip s) ≠ p.1) →
      get_enum_from_str s =
        Except.error "Day must be one of: Mon, Tue, Wed, Thu, Fri, Sat, Sun" := by
  refine ⟨rfl, rfl, rfl, ?_⟩
  intro s h
  unfold get_enum_from_str WeekdayEnum_getitem
  cases hf : WeekdayEnum_members.find? (fun p => p.1 == pyLower (pyStrip s)) with
  | none => rfl
  | some p =>
    have hmem := List.mem_of_find?_eq_some hf
    have hp := List.find?_some hf
    rw [beq_iff_eq] at hp
    exact absurd hp.symm (h p hmem)

/-- Witness for C7: a concrete unknown day name is rejected. -/
theorem c7_get_enum_from_str_spec_witness :
    get_enum_from_str "xyz" =
      Except.error "Day must be one of: Mon, Tue, Wed, Thu, Fri, Sat, Sun" :=
  c7_get_enum_from_str_spec.2.2.2 "xyz" (by decide)

/-- C9: `is_valid_time` accepts every string that merely begins with
digit-digit-colon-digit-digit, with no range check: it accepts `"99:99"`,
which `strptime("%H:%M")` (the bulk-parse path's time parser) rejects; and
the form pipeline really feeds such strings to it
(`convert_time_input "99:99" = "99:99"`). -/
theorem c9_is_valid_time_lenient (s : String) (a b c d : Char) (rest : List Char)
    (hs : s.data = a :: b :: ':' :: c :: d :: rest)
    (ha : a.isDigit = true) (hb : b.isDigit = true)
    (hc : c.isDigit = true) (hd : d.isDigit = true) :
    is_valid_time s = true ∧
    is_valid_time "99:99" = true ∧
    strptimeHM "99:99" = none ∧
    convert_time_input "99:99" = "99:99" := by
  refine ⟨?_, by decide, by decide, rfl⟩
  unfold is_valid_time
  rw [hs]
  simp [ha, hb, hc, hd]

/-- Witness for C9: `"12:345"` begins with the pattern (and is accepted). -/
theorem c9_is_valid_time_lenient_witness :
    is_valid_time "12:345" = true ∧
    is_valid_time "99:99" = true ∧
    strptimeHM "99:99" = none ∧
    convert_time_input "99:99" = "99:99" :=
  c9_is_valid_time_lenient "12:345" '1' '2' '3' '4' ['5'] rfl rfl rfl rfl rfl

theorem foldl_min_mem {α : Type} [LinearOrder α] :
    ∀ (l : List α) (a : α), l.foldl min a ∈ a :: l
  | [], a => by simp
  | b :: l, a => by
    have h := foldl_min_mem l (min a b)
    simp only [List.foldl_cons]
    rcases List.mem_cons.mp h with h1 | h1
    · rcases min_choice a b with h2 | h2
      · exact List.mem_cons.mpr (Or.inl (h1.trans h2))
      · exact List.mem_cons.mpr (Or.inr (List.mem_cons.mpr (Or.inl (h1.trans h2))))
    · exact List.mem_cons.mpr (Or.inr (List.mem_cons.mpr (Or.inr h1)))

theorem foldl_min_le {α : Type} [LinearOrder α] :
    ∀ (l : List α) (a x : α), x ∈ a :: l → l.foldl min a ≤ x
  | [], a, x, hx => by
    simp at hx
    simp [hx]
  | b :: l, a, x, hx => by
    simp only [List.foldl_cons]
    have hhead : l.foldl min (min a b) ≤ min a b :=
      foldl_min_le l (min a b) (min a b) (List.mem_cons_self _ _)
    rcases List.mem_cons.mp hx with rfl | hx1
    · exact le_trans hhead (min_le_left _ _)
    · rcases List.mem_cons.mp hx1 with rfl | hx2
      · exact le_trans hhead (min_le_right _ _)
      · exact foldl_min_le l (min a b) x (List.mem_cons_of_mem _ hx2)

theorem foldl_max_mem {α : Type} [LinearOrder α] :
    ∀ (l : List α) (a : α), l.foldl max a ∈ a :: l
  | [], a => by simp
  | b :: l, a => by
    have h := foldl_max_mem l (max a b)
    simp only [List.foldl_cons]
    rcases List.mem_cons.mp h with h1 | h1
    · rcases max_choice a b with h2 | h2
      · exact List.mem_cons.mpr (Or.inl (h1.trans h2))
      · exact List.mem_cons.mpr (Or.inr (List.mem_cons.mpr (Or.inl (h1.trans h2))))
    · exact List.mem_cons.mpr (Or.inr (List.mem_cons.mpr (Or.inr h1)))

theorem le_foldl_max {α : Type} [LinearOrder α] :
    ∀ (l : List α) (a x : α), x ∈ a :: l → x ≤ l.foldl max a
  | [], a, x, hx => by
    simp at hx
    simp [hx]
  | b :: l, a, x, hx => by
    simp only [List.foldl_cons]
    have hhead : max a b ≤ l.foldl max (max a b) :=
      le_foldl_max l (max a b) (max a b) (List.mem_cons_self _ _)
    rcases List.mem_cons.mp hx with rfl | hx1
    · exact le_trans (le_max_left _ _) hhead
    · rcases List.mem_cons.mp hx1 with rfl | hx2
      · exact le_trans (le_max_right _ _) hhead
      · exact le_foldl_max l (max a b) x (List.mem_cons_of_mem _ hx2)

theorem mem_pyRangeZ (a b h : ℤ) : h ∈ pyRangeZ a b ↔ a ≤ h ∧ h < b := by
  unfold pyRangeZ
  constructor
  · intro hmem
    obtain ⟨i, hiR, hEq⟩ := List.mem_map.mp hmem
    have hi := List.mem_range.mp hiR
    subst hEq
    omega
  · intro hh
    exact List.mem_map.mpr ⟨(h - a).toNat, List.mem_range.mpr (by omega), by omega⟩

theorem plot_finish_ylim (fig : Fig) (s sh : Bool) (p : Option String) :
    (plot_finish fig s sh p).ylim = fig.ylim := by
  unfold plot_finish
  cases s <;> cases sh <;> rfl

theorem plot_finish_yticks (fig : Fig) (s sh : Bool) (p : Option String) :
    (plot_finish fig s sh p).yticks = fig.yticks := by
  unfold plot_finish
  cases s <;> cases sh <;> rfl

theorem plot_finish_grid_y (fig : Fig) (s sh : Bool) (p : Option String) :
    (plot_finish fig s sh p).grid_y = fig.grid_y := by
  unfold plot_finish
  cases s <;> cases sh <;> rfl

/-- Reduction of `plot_events` on a non-empty list once the save/out-path
guard does not fire. -/
theorem plot_events_cons_eq (e : Event) (es : List Event)
    (show_img with_weekends save_img : Bool) (out_path : Option String)
    (hg : (save_img && out_path.isNone) = false) :
    plot_events (e :: es) show_img with_weekends save_img out_path =
      (e :: es, Except.ok (plot_finish (plot_set_y (plot_fig_base (e :: es) with_weekends)
        ⌈(es.map (fun ev => time_to_hours ev.start)).foldl min (time_to_hours e.start)⌉
        ⌈(es.map (fun ev => time_to_hours ev.end_)).foldl max (time_to_hours e.end_)⌉)
        save_img show_img out_path)) := by
  unfold plot_events
  rw [hg]
  rfl

/-- The save/out-path guard is off when an output target accompanies a save
request. -/
theorem guard_off (save_img : Bool) (out_path : Option String)
    (h : save_img = true → out_path.isSome = true) :
    (save_img && out_path.isNone) = false := by
  cases save_img
  · rfl
  · have hs := h rfl
    cases out_path
    · simp at hs
    · rfl

/-- C4: rendering an empty event sequence fails with the empty-schedule
error, for every combination of the weekend and save flags (whenever a save
request comes with an output target, so the output-target guard does not
fire first). -/
theorem c4_plot_events_empty_raises (show_img with_weekends save_img : Bool)
    (out_path : Option String) (h : save_img = true → out_path.isSome = true) :
    (plot_events [] show_img with_weekends save_img out_path).2 =
      Except.error PlotErr.emptySchedule := by
  unfold plot_events
  rw [guard_off save_img out_path h]
  rfl

/-- Witness for C4. -/
theorem c4_plot_events_empty_raises_witness :
    (plot_events [] true true true (some "out.png")).2 =
      Except.error PlotErr.emptySchedule :=
  c4_plot_events_empty_raises true true true (some "out.png") (fun _ => rfl)

/-- The event of the spec's end-to-end example: Study, Monday 09:00-10:30. -/
def studyEvent : Event := ⟨"Study", ⟨"mon", 0⟩, ⟨9, 0⟩, ⟨10, 30⟩, "#336699"⟩

/-- C5: for a non-empty event list the render succeeds and the y-limits are
`(ceil of the maximum fractional-hour end, ceil of the minimum fractional-hour
start)` — `set_ylim(bottom, top)` with bottom the latest hour and top the
earliest, i.e. the visible range is [ceil min start, ceil max end] with the
axis inverted. -/
theorem c5_plot_events_visible_range (e : Event) (es : List Event)
    (show_img with_weekends save_img : Bool) (out_path : Option String)
    (h : save_img = true → out_path.isSome = true) :
    ∃ fig : Fig,
      (plot_events (e :: es) show_img with_weekends save_img out_path).2 =
        Except.ok fig ∧
      ∃ m M : ℚ,
        m ∈ (e :: es).map (fun ev => time_to_hours ev.start) ∧
        (∀ x ∈ (e :: es).map (fun ev => time_to_hours ev.start), m ≤ x) ∧
        M ∈ (e :: es).map (fun ev => time_to_hours ev.end_) ∧
        (∀ x ∈ (e :: es).map (fun ev => time_to_hours ev.end_), x ≤ M) ∧
        fig.ylim = some (⌈M⌉, ⌈m⌉) := by
  rw [plot_events_cons_eq e es show_img with_weekends save_img out_path
    (guard_off save_img out_path h)]
  refine ⟨_, rfl, ?_⟩
  refine ⟨(es.map (fun ev => time_to_hours ev.start)).foldl min (time_to_hours e.start),
          (es.map (fun ev => time_to_hours ev.end_)).foldl max (time_to_hours e.end_),
          ?_, ?_, ?_, ?_, ?_⟩
  · rw [List.map_cons]
    exact foldl_min_mem _ _
  · intro x hx
    rw [List.map_cons] at hx
    exact foldl_min_le _ _ x hx
  · rw [List.map_cons]
    exact foldl_max_mem _ _
  · intro x hx
    rw [List.map_cons] at hx
    exact le_foldl_max _ _ x hx
  · rw [plot_finish_ylim]
    rfl

/-- Witness for C5: the single event 09:00-10:30 of the spec example. -/
theorem c5_plot_events_visible_range_witness :
    ∃ fig : Fig,
      (plot_events [studyEvent] false true false none).2 = Except.ok fig ∧
      ∃ m M : ℚ,
        m ∈ [studyEvent].map (fun ev => time_to_hours ev.start) ∧
        (∀ x ∈ [studyEvent].map (fun ev => time_to_hours ev.start), m ≤ x) ∧
        M ∈ [studyEvent].map (fun ev => time_to_hours ev.end_) ∧
        (∀ x ∈ [studyEvent].map (fun ev => time_to_hours ev.end_), x ≤ M) ∧
        fig.ylim = some (⌈M⌉, ⌈m⌉) :=
  c5_plot_events_visible_range studyEvent [] false true false none
    (fun hx => by cases hx)

/-- C10: `plot_events` leaves its input event list (hence every event in it)
unchanged, whether it returns a figure or raises. -/
theorem c10_plot_events_preserves_events (events : List Event)
    (show_img with_weekends save_img : Bool) (out_path : Option String) :
    (plot_events events show_img with_weekends save_img out_path).1 = events := by
  unfold plot_events
  cases save_img && out_path.isNone <;> cases events <;> rfl

theorem plot_set_y_yticks (fig : Fig) (a b : ℤ) :
    (plot_set_y fig a b).yticks = pyRangeZ a b := rfl

theorem plot_set_y_grid_y (fig : Fig) (a b : ℤ) :
    (plot_set_y fig a b).grid_y = true := rfl

/-- C6 (counterexample): the claim says the hour ticks are every integer hour
`h` with `ceil(min start) <= h <= ceil(max end)`.  For the single event
09:00-10:30 the code sets `yticks = range(9, 11) = [9, 10]`: the top hour 11
(= ceil(max end)) carries no tick, refuting the claimed tick set. -/
theorem c6_hour_ticks_counterexample :
    ∃ fig : Fig,
      (plot_events [studyEvent] false true false none).2 = Except.ok fig ∧
      fig.yticks = [9, 10] ∧
      ¬ (∀ hh : ℤ, hh ∈ fig.yticks ↔ (9 ≤ hh ∧ hh ≤ 11)) := by
  have h1 : ⌈time_to_hours studyEvent.start⌉ = (9 : ℤ) := by
    unfold studyEvent time_to_hours
    rw [Int.ceil_eq_iff]
    norm_num
  have h2 : ⌈time_to_hours studyEvent.end_⌉ = (11 : ℤ) := by
    unfold studyEvent time_to_hours
    rw [Int.ceil_eq_iff]
    norm_num
  rw [plot_events_cons_eq studyEvent [] false true false none rfl]
  refine ⟨_, rfl, ?_, ?_⟩
  · rw [plot_finish_yticks, plot_set_y_yticks]
    simp only [List.map_nil, List.foldl_nil]
    rw [h1, h2]
    decide
  · intro hAll
    have h11 := hAll 11
    rw [plot_finish_yticks, plot_set_y_yticks] at h11
    simp only [List.map_nil, List.foldl_nil] at h11
    rw [h1, h2] at h11
    have hmem := h11.mpr ⟨by decide, by decide⟩
    exact absurd hmem (by decide)

/-- C6 (amended): for a non-empty event list the render succeeds, draws the
y gridlines, and the hour ticks are exactly the integer hours `h` with
`ceil(min start) <= h < ceil(max end)` — one tick per whole hour in the
visible range except its last (bottom-most) hour, which gets none
(`range(earliest, latest)` excludes `latest`). -/
theorem c6_hour_ticks_amended (e : Event) (es : List Event)
    (show_img with_weekends save_img : Bool) (out_path : Option String)
    (h : save_img = true → out_path.isSome = true) :
    ∃ fig : Fig,
      (plot_events (e :: es) show_img with_weekends save_img out_path).2 =
        Except.ok fig ∧
      ∃ m M : ℚ,
        m ∈ (e :: es).map (fun ev => time_to_hours ev.start) ∧
        (∀ x ∈ (e :: es).map (fun ev => time_to_hours ev.start), m ≤ x) ∧
        M ∈ (e :: es).map (fun ev => time_to_hours ev.end_) ∧
        (∀ x ∈ (e :: es).map (fun ev => time_to_hours ev.end_), x ≤ M) ∧
        fig.grid_y = true ∧
        (∀ hh : ℤ, hh ∈ fig.yticks ↔ (⌈m⌉ ≤ hh ∧ hh < ⌈M⌉)) := by
  rw [plot_events_cons_eq e es show_img with_weekends save_img out_path
    (guard_off save_img out_path h)]
  refine ⟨_, rfl, ?_⟩
  refine ⟨(es.map (fun ev => time_to_hours ev.start)).foldl min (time_to_hours e.start),
          (es.map (fun ev => time_to_hours ev.end_)).foldl max (time_to_hours e.end_),
          ?_, ?_, ?_, ?_, ?_, ?_⟩
  · rw [List.map_cons]
    exact foldl_min_mem _ _
  · intro x hx
    rw [List.map_cons] at hx
    exact foldl_min_le _ _ x hx
  · rw [List.map_cons]
    exact foldl_max_mem _ _
  · intro x hx
    rw [List.map_cons] at hx
    exact le_foldl_max _ _ x hx
  · rw [plot_finish_grid_y, plot_set_y_grid_y]
  · intro hh
    rw [plot_finish_yticks, plot_set_y_yticks]
    exact mem_pyRangeZ _ _ hh

/-- Witness for the amended C6. -/
theorem c6_hour_ticks_amended_witness :
    ∃ fig : Fig,
      (plot_events [studyEvent] false true false none).2 = Except.ok fig ∧
      ∃ m M : ℚ,
        m ∈ [studyEvent].map (fun ev => time_to_hours ev.start) ∧
        (∀ x ∈ [studyEvent].map (fun ev => time_to_hours ev.start), m ≤ x) ∧
        M ∈ [studyEvent].map (fun ev => time_to_hours ev.end_) ∧
        (∀ x ∈ [studyEvent].map (fun ev => time_to_hours ev.end_), x ≤ M) ∧
        fig.grid_y = true ∧
        (∀ hh : ℤ, hh ∈ fig.yticks ↔ (⌈m⌉ ≤ hh ∧ hh < ⌈M⌉)) :=
  c6_hour_ticks_amended studyEvent [] false true false none (fun hx => by cases hx)

/-- Propositional unfolding of the loop comparison. -/
theorem keyLt_iff (a b : Nat × Dtime) :
    keyLt a b = true ↔
      (a.1 < b.1 ∨ (a.1 = b.1 ∧
        (a.2.hour < b.2.hour ∨ (a.2.hour = b.2.hour ∧ a.2.minute < b.2.minute)))) := by
  unfold keyLt dtime_lt
  simp

theorem keyLt_eq_false_iff (a b : Nat × Dtime) :
    keyLt a b = false ↔
      ¬ (a.1 < b.1 ∨ (a.1 = b.1 ∧
        (a.2.hour < b.2.hour ∨ (a.2.hour = b.2.hour ∧ a.2.minute < b.2.minute)))) := by
  rw [← keyLt_iff]
  cases keyLt a b <;> simp

theorem keyLt_asymm {a b : Nat × Dtime} (h : keyLt a b = true) : keyLt b a = false := by
  rw [keyLt_iff] at h
  rw [keyLt_eq_false_iff]
  rcases a with ⟨a1, ah, am⟩
  rcases b with ⟨b1, bh, bm⟩
  dsimp only at h ⊢
  omega

theorem keyLt_of_lt_of_nlt {a b c : Nat × Dtime}
    (h1 : keyLt a b = true) (h2 : keyLt c b = false) : keyLt a c = true := by
  rw [keyLt_iff] at h1 ⊢
  rw [keyLt_eq_false_iff] at h2
  rcases a with ⟨a1, ah, am⟩
  rcases b with ⟨b1, bh, bm⟩
  rcases c with ⟨c1, ch, cm⟩
  dsimp only at h1 h2 ⊢
  omega

theorem itemLe_true_of_keys {x y : String} {kx ky : Nat × Dtime}
    (hx : taskKey x = some kx) (hy : taskKey y = some ky) :
    itemLe x y = !(keyLt ky kx) := by
  unfold itemLe
  rw [hx, hy]

theorem keyLt_false_of_itemLe {x y : String} {kx ky : Nat × Dtime}
    (hx : taskKey x = some kx) (hy : taskKey y = some ky)
    (hle : itemLe x y = true) : keyLt ky kx = false := by
  rw [itemLe_true_of_keys hx hy] at hle
  simpa using hle

/-- Correctness of the insertion loop over a sorted, fully parsable list:
the loop splits the list as `A ++ B`, puts the new item between the parts,
every item of `A` has key not above the new key, and every item of `B` has
key strictly above it (so items with an equal key all land in `A`, before
the new item). -/
theorem insert_sorted_aux_spec (k : Nat × Dtime) (item : String) :
    ∀ l : List String,
      (∀ x ∈ l, (taskKey x).isSome = true) →
      l.Pairwise (fun x y => itemLe x y = true) →
      ∃ A B, l = A ++ B ∧
        insert_sorted_aux k item l = some (A ++ item :: B) ∧
        (∀ x ∈ A, ∀ kx, taskKey x = some kx → keyLt k kx = false) ∧
        (∀ x ∈ B, ∀ kx, taskKey x = some kx → keyLt k kx = true) := by
  intro l
  induction l with
  | nil =>
    intro _ _
    exact ⟨[], [], rfl, rfl, by simp, by simp⟩
  | cons cur rest ih =>
    intro hall hsorted
    obtain ⟨kc, hkc⟩ := Option.isSome_iff_exists.mp (hall cur (List.mem_cons_self _ _))
    by_cases hlt : keyLt k kc = true
    · refine ⟨[], cur :: rest, rfl, ?_, by simp, ?_⟩
      · unfold insert_sorted_aux
        rw [hkc]
        simp [hlt]
      · intro x hx kx hkx
        rcases List.mem_cons.mp hx with rfl | hx2
        · rw [hkx] at hkc
          injection hkc with hkk
          rw [hkk]
          exact hlt
        · have hle : itemLe cur x = true := (List.pairwise_cons.mp hsorted).1 x hx2
          exact keyLt_of_lt_of_nlt hlt (keyLt_false_of_itemLe hkc hkx hle)
    · have hlt' : keyLt k kc = false := by
        cases hkl : keyLt k kc
        · rfl
        · exact absurd hkl hlt
      obtain ⟨A, B, hAB, hins, hA, hB⟩ :=
        ih (fun x hx => hall x (List.mem_cons_of_mem _ hx))
          (List.pairwise_cons.mp hsorted).2
      refine ⟨cur :: A, B, by rw [hAB]; rfl, ?_, ?_, hB⟩
      · unfold insert_sorted_aux
        rw [hkc]
        simp [hlt', hins]
      · intro x hx kx hkx
        rcases List.mem_cons.mp hx with rfl | hx2
        · rw [hkx] at hkc
          injection hkc with hkk
          rw [hkk]
          exact hlt'
        · exact hA x hx2 kx hkx

/-- C8: inserting a well-formed item (full English day name, `HH:MM` start)
into a task list of well-formed items sorted by (day index, start time)
keeps the list sorted, and the item lands after every existing item whose
key is not strictly greater — in particular after all items with an equal
(day, start) key, so insertion is stable. -/
theorem c8_insert_sorted_spec (item : String) (l : List String) (k : Nat × Dtime)
    (hk : taskKey item = some k)
    (hall : ∀ x ∈ l, (taskKey x).isSome = true)
    (hsorted : l.Pairwise (fun x y => itemLe x y = true)) :
    ∃ A B, l = A ++ B ∧
      insert_sorted item l = some (A ++ item :: B) ∧
      (A ++ item :: B).Pairwise (fun x y => itemLe x y = true) ∧
      (∀ x ∈ B, ∀ kx, taskKey x = some kx → keyLt k kx = true) := by
  obtain ⟨A, B, hAB, hins, hA, hB⟩ := insert_sorted_aux_spec k item l hall hsorted
  refine ⟨A, B, hAB, ?_, ?_, hB⟩
  · unfold insert_sorted
    rw [hk]
    simpa using hins
  · subst hAB
    obtain ⟨hpA, hpB, hcross⟩ := List.pairwise_append.mp hsorted
    apply List.pairwise_append.mpr
    refine ⟨hpA, ?_, ?_⟩
    · apply List.pairwise_cons.mpr
      refine ⟨?_, hpB⟩
      intro x hx
      obtain ⟨kx, hkx⟩ :=
        Option.isSome_iff_exists.mp (hall x (List.mem_append.mpr (Or.inr hx)))
      rw [itemLe_true_of_keys hk hkx, keyLt_asymm (hB x hx kx hkx)]
      rfl
    · intro a ha b hb
      rcases List.mem_cons.mp hb with rfl | hb2
      · obtain ⟨ka, hka⟩ :=
          Option.isSome_iff_exists.mp (hall a (List.mem_append.mpr (Or.inl ha)))
        rw [itemLe_true_of_keys hka hk, hA a ha ka hka]
        rfl
      · exact hcross a ha b hb2

/-- Witness for C8: a list already containing two items with the same
(Monday, 09:00) key; the inserted item shares that key and must land after
both. -/
theorem c8_insert_sorted_spec_witness :
    ∃ A B,
      (["A1, Monday, 09:00 - 10:00, #ff0000", "B2, Monday, 09:00 - 10:30, #00ff00",
        "C3, Tuesday, 08:00 - 09:00, #0000ff"] : List String) = A ++ B ∧
      insert_sorted "D4, Monday, 09:00 - 11:00, #ffffff"
        ["A1, Monday, 09:00 - 10:00, #ff0000", "B2, Monday, 09:00 - 10:30, #00ff00",
         "C3, Tuesday, 08:00 - 09:00, #0000ff"] =
        some (A ++ "D4, Monday, 09:00 - 11:00, #ffffff" :: B) ∧
      (A ++ "D4, Monday, 09:00 - 11:00, #ffffff" :: B).Pairwise
        (fun x y => itemLe x y = true) ∧
      (∀ x ∈ B, ∀ kx, taskKey x = some kx → keyLt (0, ⟨9, 0⟩) kx = true) :=
  c8_insert_sorted_spec "D4, Monday, 09:00 - 11:00, #ffffff"
    ["A1, Monday, 09:00 - 10:00, #ff0000", "B2, Monday, 09:00 - 10:30, #00ff00",
     "C3, Tuesday, 08:00 - 09:00, #0000ff"] (0, ⟨9, 0⟩) rfl (by decide) (by decide)
